import Mathlib

/-!
Verification development for the AI-Flow / ScheduleX scheduling services.

The repository ships two implementations of the scheduling engine:

* `src/services/AISchedulingService.ts` (the "simple" shipped version, also
  present as `src/unnamed/part_000`): `generateScheduleSuggestions` schedules
  every task that has a deadline at exactly its deadline instant, ignoring
  the `existingEvents`, `preferences` and `dateRange` arguments.
* `src/services/AISchedulingService.backup.ts` (the algorithmic version):
  candidate-slot segmentation (`createDetailedTimeSlots`), a suitability
  filter, slot scoring (`scoreSlotForTask`), greedy placement
  (`generateTaskPlacements` / `findOptimalSlotForTask` / `removeUsedSlot`),
  result assembly (`optimizeSchedule`), conflict detection
  (`detectSchedulingConflicts`) and workload analysis
  (`calculateWorkloadBalance`).

Modelling conventions, fixed once for the whole file:

* Timestamps (`Date` values, `getTime()`) are integers counting milliseconds
  since the epoch; the local time zone is taken to be UTC, so the calendar
  day of an instant is its epoch-day bucket (floor division by 86400000) and
  two instants format to the same date-fns `yyyy-MM-dd` string exactly when
  those buckets coincide.  Epoch day 0 is a Thursday, so the JS
  `Date.getDay()` weekday is `(epochDay + 4) mod 7`.
* JS floating-point division on these quantities is modelled by exact
  rational arithmetic (`ℚ`); `Math.round` is `⌊q + 1/2⌋` and `Math.floor`
  of a nonnegative integer quotient is integer division.
* `Date.now()` is an explicit `now : Millis` argument threaded into every
  function that reads the ambient clock (the suggestion ids embed it).
* Template strings whose only information content is the interpolated
  values (`id`, `reasoning`, `considerations`) are modelled as structures
  holding exactly those interpolated values; the surrounding literal text is
  constant, so equality of the structures coincides with equality of the
  produced strings.  Task titles are modelled as character lists so that the
  scorer's lower-casing and substring tests can be carried out faithfully.
* The backup `reasoning` field is produced by an external narrative
  collaborator (Gemini, with a templated fallback); no claim below depends
  on it and it is omitted from the modelled suggestion record.
-/

namespace AIFlow

/-- Milliseconds since the epoch, the unit of JS `Date.getTime()`. -/
abbrev Millis := Int

def msPerMinute : Int := 60000

def msPerHour : Int := 3600000

def msPerDay : Int := 86400000

/-- date-fns `addMinutes`. -/
def addMinutes (t : Millis) (m : Int) : Millis := t + m * msPerMinute

/-- Epoch-day bucket of an instant: two instants satisfy
`format(a, 'yyyy-MM-dd') === format(b, 'yyyy-MM-dd')` iff `dayOf a = dayOf b`. -/
def dayOf (t : Millis) : Int := t.ediv msPerDay

/-- date-fns `startOfDay`: midnight at the beginning of the instant's day. -/
def startOfDay (t : Millis) : Millis := dayOf t * msPerDay

/-- date-fns `endOfDay`: 23:59:59.999 of the instant's day. -/
def endOfDay (t : Millis) : Millis := startOfDay t + msPerDay - 1

/-- JS `Date.getHours()` (local = UTC). -/
def hourOf (t : Millis) : Int := (t.emod msPerDay).ediv msPerHour

/-- JS `getHours() * 60 + getMinutes()`: whole minutes into the day. -/
def minuteOfDay (t : Millis) : Int := (t.emod msPerDay).ediv msPerMinute

/-- JS `Date.getDay()`: weekday index 0-6 with 0 = Sunday (epoch day 0 was a
Thursday). -/
def weekdayOf (t : Millis) : Int := (dayOf t + 4).emod 7

/-- JS `Math.round` on an exact rational: round half toward positive
infinity. -/
def jsRound (q : ℚ) : Int := ⌊q + 1 / 2⌋

/-- Task priority (`'low' | 'medium' | 'high' | 'urgent'`). -/
inductive Priority where
  | low
  | medium
  | high
  | urgent
deriving DecidableEq

/-- The `TimeSlot` interface of `types/calendar.ts`; the TS field `end` is
renamed `stop` because `end` is a Lean keyword. -/
structure TimeSlot where
  start : Millis
  stop : Millis
  available : Bool
deriving DecidableEq

/-- The `Task` interface, restricted to the fields the scheduling services
read: `id`, `title`, `duration` (minutes), `deadline`, `priority`,
`isCompleted`. -/
structure Task where
  id : Nat
  title : List Char
  duration : Int
  deadline : Option Millis
  priority : Priority
  isCompleted : Bool
deriving DecidableEq

/-- A `focusTimeBlocks` entry; the `'HH:MM'` strings are modelled as the
minute-of-day values they parse to. -/
structure FocusBlock where
  start : Int
  stop : Int
  days : List Int
deriving DecidableEq

/-- `SchedulingPreferences`, restricted to the fields the engine reads.
`workingHours.start/end` are modelled as minute-of-day values; an absent
`focusTimeBlocks` is the empty list (both make the focus loop a no-op). -/
structure SchedulingPreferences where
  workStart : Int
  workStop : Int
  workingDays : List Int
  bufferTime : Int
  focusTimeBlocks : List FocusBlock
deriving DecidableEq

/-- A calendar event, reduced to its start/end instants (the only fields the
engine reads). -/
structure CalendarEvent where
  start : Millis
  stop : Millis
deriving DecidableEq

/-- The `dateRange : { start: Date; end: Date }` argument. -/
structure DateRange where
  start : Millis
  stop : Millis
deriving DecidableEq

/-- The template string `suggestion-${task.id}-${Date.now()}`, as the pair of
interpolated values (the literal text is constant, so equality of the pairs
is equality of the strings). -/
structure SuggestionId where
  taskId : Nat
  stamp : Millis
deriving DecidableEq

/-- The simple service's `reasoning` template string, as its interpolated
values: the scheduled start instant (formatted twice) and the task title. -/
structure SimpleReasoning where
  scheduledStart : Millis
  title : List Char
deriving DecidableEq

/-- The simple service's three-element `considerations` array, as its
interpolated values (duration and priority; the first element is a constant
string). -/
structure SimpleConsiderations where
  duration : Int
  priority : Priority
deriving DecidableEq

/-- An `AISchedulingSuggestion` as built by the simple shipped service. -/
structure AISchedulingSuggestion where
  id : SuggestionId
  task : Task
  suggestedSlot : TimeSlot
  confidence : ℚ
  reasoning : SimpleReasoning
  alternatives : List TimeSlot
  considerations : SimpleConsiderations
deriving DecidableEq

/-- Workload intensity labels. -/
inductive Intensity where
  | light
  | moderate
  | heavy
  | overloaded
deriving DecidableEq

/-- A `workloadBalance` entry; the `yyyy-MM-dd` key is modelled as the epoch
day it names. -/
structure DayWorkload where
  date : Int
  hours : ℚ
  taskCount : Nat
  intensity : Intensity
deriving DecidableEq

/-- Conflict kinds. -/
inductive ConflictType where
  | overlap
  | deadline_conflict
  | dependency_violation
deriving DecidableEq

/-- Conflict severities. -/
inductive Severity where
  | low
  | medium
  | high
deriving DecidableEq

/-- A conflict record; the free-text `description` is a template around the
affected task titles and carries no further information, so it is omitted. -/
structure Conflict where
  type : ConflictType
  affectedTasks : List Nat
  severity : Severity
deriving DecidableEq

/-- The `ScheduleOptimization` result of the simple shipped service. -/
structure ScheduleOptimization where
  totalTasks : Nat
  scheduledTasks : Nat
  unscheduledTasks : List Task
  suggestions : List AISchedulingSuggestion
  workloadBalance : List DayWorkload
  conflicts : List Conflict
deriving DecidableEq

namespace Simple

/-- `AISchedulingService.generateScheduleSuggestions` of the shipped
`AISchedulingService.ts` (identical logic in `src/unnamed/part_000`): every
task with a deadline is scheduled at exactly `[deadline, deadline +
duration]` with confidence 1; tasks without a deadline are skipped and
collected as `unscheduledTasks`; `existingEvents`, `preferences` and
`dateRange` are never read; `workloadBalance` and `conflicts` are the empty
arrays. -/
def generateScheduleSuggestions (tasks : List Task)
    (_existingEvents : List CalendarEvent)
    (_preferences : SchedulingPreferences) (_dateRange : DateRange)
    (now : Millis) : ScheduleOptimization :=
  let suggestions := tasks.filterMap fun task =>
    match task.deadline with
    | none => none
    | some dl =>
      let scheduledStart := dl
      let scheduledEnd := addMinutes scheduledStart task.duration
      some { id := ⟨task.id, now⟩
             task := task
             suggestedSlot := ⟨scheduledStart, scheduledEnd, true⟩
             confidence := 1
             reasoning := ⟨scheduledStart, task.title⟩
             alternatives := []
             considerations := ⟨task.duration, task.priority⟩ }
  { totalTasks := tasks.length
    scheduledTasks := suggestions.length
    unscheduledTasks := tasks.filter fun task => task.deadline.isNone
    suggestions := suggestions
    workloadBalance := []
    conflicts := [] }

/-- A suggestion with its generated id stripped, for comparing two runs up to
the id strings (which embed `Date.now()`). -/
def eraseId (s : AISchedulingSuggestion) :
    Task × TimeSlot × ℚ × SimpleReasoning × List TimeSlot ×
      SimpleConsiderations :=
  (s.task, s.suggestedSlot, s.confidence, s.reasoning, s.alternatives,
    s.considerations)

/-- A whole result with suggestion ids stripped. -/
def eraseIds (r : ScheduleOptimization) :
    Nat × Nat × List Task ×
      List (Task × TimeSlot × ℚ × SimpleReasoning × List TimeSlot ×
        SimpleConsiderations) ×
      List DayWorkload × List Conflict :=
  (r.totalTasks, r.scheduledTasks, r.unscheduledTasks,
    r.suggestions.map eraseId, r.workloadBalance, r.conflicts)

end Simple

namespace Backup

/-- The AI task-analysis annotation (`optimal_time_of_day`,
`focus_level_required`), restricted to the two fields the scorer reads. -/
inductive TimeOfDayPref where
  | early_morning
  | morning
  | late_morning
  | afternoon
  | evening
  | any
deriving DecidableEq

/-- Required focus level from the task analysis. -/
inductive FocusLevel where
  | low
  | medium
  | high
  | deep_focus
deriving DecidableEq

/-- The analysis record attached to each task. -/
structure Analysis where
  optimal_time_of_day : TimeOfDayPref
  focus_level_required : FocusLevel
deriving DecidableEq

/-- `Task & { analysis: any }`: a task together with its analysis. -/
structure ATask extends Task where
  analysis : Analysis
deriving DecidableEq

/-- A suggestion as built by `findOptimalSlotForTask` in the backup service.
The `reasoning` string comes from the external narrative collaborator and
the `considerations` array is a deterministic template over the task; no
claim depends on either, so they are omitted here. -/
structure BSuggestion where
  id : SuggestionId
  task : ATask
  suggestedSlot : TimeSlot
  confidence : ℚ
  alternatives : List TimeSlot
deriving DecidableEq

/-- The `ScheduleOptimization` assembled by the backup `optimizeSchedule`. -/
structure BScheduleOptimization where
  totalTasks : Nat
  scheduledTasks : Nat
  unscheduledTasks : List ATask
  suggestions : List BSuggestion
  workloadBalance : List DayWorkload
  conflicts : List Conflict
deriving DecidableEq

/-- Boolean test that the character list `s` starts with `pat`. -/
def listStartsWith : List Char → List Char → Bool
  | _, [] => true
  | [], _ :: _ => false
  | c :: s, d :: pat => c = d && listStartsWith s pat

/-- JS `String.prototype.includes`: `pat` occurs contiguously in `s`. -/
def containsSub (s pat : List Char) : Bool :=
  match s with
  | [] => listStartsWith [] pat
  | _ :: rest => listStartsWith s pat || containsSub rest pat

def kwBreakfast : List Char := ['b', 'r', 'e', 'a', 'k', 'f', 'a', 's', 't']

def kwMorning : List Char := ['m', 'o', 'r', 'n', 'i', 'n', 'g']

def kwLunch : List Char := ['l', 'u', 'n', 'c', 'h']

def kwDinner : List Char := ['d', 'i', 'n', 'n', 'e', 'r']

/-- `isTimeInFocusBlock`: the instant's weekday is listed and its
minute-of-day lies in the block's inclusive range. -/
def isTimeInFocusBlock (time : Millis) (focusBlock : FocusBlock) : Bool :=
  if ¬ focusBlock.days.contains (weekdayOf time) then false
  else
    let timeInMinutes := minuteOfDay time
    if focusBlock.start ≤ timeInMinutes ∧ timeInMinutes ≤ focusBlock.stop
    then true else false

/-- `scoreSlotForTask`, translated clause by clause: base 50, then the
time-of-day chain, the title-keyword bonuses, the priority bonus, the
deadline block (exact match, deadline day with proximity bonus, day-before
tiers, past-deadline penalty, early-day penalty), the focus-block loop
(which adds 15 once per matching block) and the duration-fit bonus (the
source literals `0.8` and `0.5` are written as the exact rationals `4 / 5`
and `1 / 2` they denote in this model). -/
def scoreSlotForTask (slot : TimeSlot) (task : ATask)
    (preferences : SchedulingPreferences) : Int :=
  let score : Int := 50
  let hour := hourOf slot.start
  let analysis := task.analysis
  let score := score +
    (if analysis.optimal_time_of_day = .early_morning ∧ 6 ≤ hour ∧ hour < 8
     then 30
     else if analysis.optimal_time_of_day = .morning ∧ 8 ≤ hour ∧ hour < 12
     then 25
     else if analysis.optimal_time_of_day = .late_morning ∧ 10 ≤ hour ∧
       hour < 12 then 20
     else if analysis.optimal_time_of_day = .afternoon ∧ 12 ≤ hour ∧
       hour < 17 then 20
     else if analysis.optimal_time_of_day = .evening ∧ 17 ≤ hour ∧ hour < 22
     then 20
     else if analysis.optimal_time_of_day = .any then 10
     else 0)
  let taskTitle := task.title.map Char.toLower
  let score := score +
    (if containsSub taskTitle kwBreakfast || containsSub taskTitle kwMorning
     then
       if 7 ≤ hour ∧ hour ≤ 9 then 40
       else if 10 < hour then -30
       else 0
     else 0)
  let score := score +
    (if containsSub taskTitle kwLunch then
       if 11 ≤ hour ∧ hour ≤ 14 then 30 else -15
     else 0)
  let score := score +
    (if containsSub taskTitle kwDinner then
       if 17 ≤ hour ∧ hour ≤ 20 then 30 else -15
     else 0)
  let score := score +
    (match task.priority with
     | .urgent => 30
     | .high => 20
     | .medium => 10
     | .low => 5)
  let score := score +
    (match task.deadline with
     | none => 0
     | some dl =>
       let isDeadlineDay := dayOf dl = dayOf slot.start
       let daysUntilDeadline : ℚ := ((dl - slot.start : Int) : ℚ) / 86400000
       let isExactDeadlineTime := (slot.start - dl).natAbs < 60000
       if isExactDeadlineTime then 1000
       else if isDeadlineDay then
         let deadlineTime := minuteOfDay dl
         let slotTime := minuteOfDay slot.start
         let timeDifference := (deadlineTime - slotTime).natAbs
         let timeProximityBonus :=
           max 0 (100 - ((timeDifference : Int)).ediv 10)
         500 + timeProximityBonus
       else if 0 ≤ daysUntilDeadline ∧ daysUntilDeadline < 1 then 50
       else if 1 ≤ daysUntilDeadline ∧ daysUntilDeadline < 2 then 20
       else if daysUntilDeadline < 0 then -1000
       else -(jsRound (daysUntilDeadline * 20)))
  let score := preferences.focusTimeBlocks.foldl
    (fun sc focusBlock =>
      if isTimeInFocusBlock slot.start focusBlock ∧
          task.analysis.focus_level_required = .high
      then sc + 15 else sc) score
  let slotDuration : ℚ := ((slot.stop - slot.start : Int) : ℚ)
  let taskDuration : ℚ := ((task.duration * 60 * 1000 : Int) : ℚ)
  let durationRatio := taskDuration / slotDuration
  let score := score +
    (if 4 / 5 < durationRatio ∧ durationRatio ≤ 1 then 10
     else if 1 / 2 < durationRatio ∧ durationRatio ≤ 4 / 5 then 5
     else 0)
  score

/-- The while loop of `createDetailedTimeSlots`: starting at `cur`, while
`cur + minNeeded ≤ slotStop` emit a slot of one hour (capped at the window
end) and advance one hour.  The loop is given structurally as recursion on
an iteration budget `fuel`; the caller passes a budget strictly larger
than the number of iterations the guard allows, so the budget never cuts
the loop short (`detailLoop_unfold` below proves the value then satisfies
the guard's fixpoint equation, independent of the remaining budget). -/
def detailLoop (slotStop minNeeded : Int) : Nat → Int → List TimeSlot
  | 0, _ => []
  | fuel + 1, cur =>
    if cur + minNeeded ≤ slotStop then
      ⟨cur, min (cur + 3600000) slotStop, true⟩ ::
        detailLoop slotStop minNeeded fuel (cur + 3600000)
    else []

/-- `createDetailedTimeSlots`: a window shorter than `duration + 30` minutes
is kept whole; otherwise it is cut into hourly candidates (the hard-coded
30-minute buffer of the source, independent of `preferences.bufferTime`).
The loop budget exceeds the number of guard-allowed iterations. -/
def createDetailedTimeSlots (availableSlots : List TimeSlot)
    (taskDuration : Int) : List TimeSlot :=
  availableSlots.flatMap fun slot =>
    let slotDurationMinutes : ℚ := ((slot.stop - slot.start : Int) : ℚ) / 60000
    if slotDurationMinutes < ((taskDuration + 30 : Int) : ℚ) then [slot]
    else
      detailLoop slot.stop ((taskDuration + 30) * 60 * 1000)
        ((slot.stop - slot.start - (taskDuration + 30) * 60 * 1000).toNat + 1)
        slot.start

/-- The suitability predicate of `findOptimalSlotForTask`'s filter: the slot
holds `duration + bufferTime` minutes, and the deadline constraint passes
(always on the deadline's calendar day; on an earlier day only when the task
would finish by the start of the deadline's day; never on a later day). -/
def slotSuitable (task : ATask) (preferences : SchedulingPreferences)
    (slot : TimeSlot) : Bool :=
  let duration := slot.stop - slot.start
  let requiredTime := (task.duration + preferences.bufferTime) * 60 * 1000
  let hasEnoughTime : Bool := requiredTime ≤ duration
  let meetsDeadline : Bool :=
    match task.deadline with
    | none => true
    | some dl =>
      let taskEndTime := addMinutes slot.start task.duration
      if dayOf dl = dayOf slot.start then true
      else if slot.start < dl then taskEndTime ≤ startOfDay dl
      else false
  hasEnoughTime && meetsDeadline

/-- The `suitableSlots` local of `findOptimalSlotForTask`: the detailed
candidates that pass the suitability filter. -/
def suitableSlotsFor (task : ATask) (availableSlots : List TimeSlot)
    (preferences : SchedulingPreferences) : List TimeSlot :=
  (createDetailedTimeSlots availableSlots task.duration).filter fun slot =>
    slotSuitable task preferences slot

/-- The `scoredSlots` local of `findOptimalSlotForTask`: each suitable slot
paired with its score. -/
def scoredSlotsFor (task : ATask) (availableSlots : List TimeSlot)
    (preferences : SchedulingPreferences) : List (TimeSlot × Int) :=
  (suitableSlotsFor task availableSlots preferences).map fun slot =>
    (slot, scoreSlotForTask slot task preferences)

/-- The scored candidates after `scoredSlots.sort((a, b) => b.score -
a.score)`: sorted descending by score (JS sort is stable, as is
`List.mergeSort`). -/
def sortedScoredFor (task : ATask) (availableSlots : List TimeSlot)
    (preferences : SchedulingPreferences) : List (TimeSlot × Int) :=
  (scoredSlotsFor task availableSlots preferences).mergeSort fun a b =>
    decide (b.2 ≤ a.2)

/-- `findOptimalSlotForTask`: segment the free windows, filter by
suitability, score the survivors, sort descending by score and commit the
best start together with up to three alternatives; `null` when no
candidate survives (the sorted list is empty exactly when the suitable
list is). -/
def findOptimalSlotForTask (task : ATask) (availableSlots : List TimeSlot)
    (preferences : SchedulingPreferences) (now : Millis) :
    Option BSuggestion :=
  match sortedScoredFor task availableSlots preferences with
  | [] => none
  | best :: rest =>
    some { id := ⟨task.id, now⟩
           task := task
           suggestedSlot :=
             ⟨best.1.start, addMinutes best.1.start task.duration, true⟩
           confidence := min ((best.2 : ℚ) / 100) 1
           alternatives := (rest.take 3).map fun s =>
             ⟨s.1.start, addMinutes s.1.start task.duration, true⟩ }

/-- `priorityOrder = { urgent: 4, high: 3, medium: 2, low: 1 }`. -/
def priorityOrder : Priority → Int
  | .urgent => 4
  | .high => 3
  | .medium => 2
  | .low => 1

/-- The comparator of `sortTasksByPriority`: priority weight descending,
then deadline ascending, tasks with a deadline before tasks without. -/
def taskCmp (a b : ATask) : Int :=
  let priorityDiff := priorityOrder b.priority - priorityOrder a.priority
  if priorityDiff ≠ 0 then priorityDiff
  else
    match a.deadline, b.deadline with
    | some da, some db => da - db
    | some _, none => -1
    | none, some _ => 1
    | none, none => 0

/-- `sortTasksByPriority` (JS `Array.prototype.sort` is stable, as is
`List.mergeSort`). -/
def sortTasksByPriority (tasks : List ATask) : List ATask :=
  tasks.mergeSort fun a b => decide (taskCmp a b ≤ 0)

/-- `removeUsedSlot`: splice out the first window containing the used slot
and push the leading and trailing remainders (when non-empty) at the end of
the pool. -/
def removeUsedSlot : List TimeSlot → TimeSlot → List TimeSlot
  | [], _ => []
  | s :: rest, usedSlot =>
    if s.start ≤ usedSlot.start ∧ usedSlot.stop ≤ s.stop then
      rest ++
        (if s.start < usedSlot.start then [⟨s.start, usedSlot.start, true⟩]
         else []) ++
        (if usedSlot.stop < s.stop then [⟨usedSlot.stop, s.stop, true⟩]
         else [])
    else s :: removeUsedSlot rest usedSlot

/-- The loop body of `generateTaskPlacements`: process tasks in order,
committing each suggestion and splitting the consumed window. -/
def placeGo (preferences : SchedulingPreferences) (now : Millis) :
    List ATask → List TimeSlot → List BSuggestion → List BSuggestion
  | [], _, acc => acc
  | task :: rest, slots, acc =>
    match findOptimalSlotForTask task slots preferences now with
    | none => placeGo preferences now rest slots acc
    | some s =>
      placeGo preferences now rest (removeUsedSlot slots s.suggestedSlot)
        (acc ++ [s])

/-- `generateTaskPlacements`: sort the tasks, then place them greedily. -/
def generateTaskPlacements (analyzedTasks : List ATask)
    (availableSlots : List TimeSlot) (preferences : SchedulingPreferences)
    (now : Millis) : List BSuggestion :=
  placeGo preferences now (sortTasksByPriority analyzedTasks) availableSlots
    []

/-- `classifyWorkloadIntensity`. -/
def classifyWorkloadIntensity (hours : ℚ) : Intensity :=
  if hours ≤ 2 then .light
  else if hours ≤ 4 then .moderate
  else if hours ≤ 6 then .heavy
  else .overloaded

/-- The day keys initialised by `calculateWorkloadBalance`: one per step of
`currentDate = startOfDay(range.start)` while `currentDate ≤
endOfDay(range.end)`, stepping a day at a time — that is, every epoch day
from `dayOf range.start` to `dayOf range.stop` inclusive. -/
def daysInRange (dateRange : DateRange) : List Int :=
  (List.range (dayOf dateRange.stop - dayOf dateRange.start + 1).toNat).map
    fun k => dayOf dateRange.start + Int.ofNat k

/-- One `Map.set` update of the accumulation loop: bump the first (only)
entry whose key is `day` by `durMin / 60` hours and one task; a missing key
(`if (existing)`) is a no-op. -/
def bumpDay : List (Int × ℚ × Nat) → Int → Int → List (Int × ℚ × Nat)
  | [], _, _ => []
  | (d, h, c) :: rest, day, durMin =>
    if d = day then (d, h + (durMin : ℚ) / 60, c + 1) :: rest
    else (d, h, c) :: bumpDay rest day durMin

/-- `calculateWorkloadBalance`: initialise every day of the range to zero,
accumulate duration and count for each suggestion with confidence above 0.3
(JS `Map` preserves the insertion order of the day keys), then attach the
intensity label.  The source literal `0.3` is written `3 / 10`, the exact
rational it denotes in this model. -/
def calculateWorkloadBalance (suggestions : List BSuggestion)
    (dateRange : DateRange) : List DayWorkload :=
  let init := (daysInRange dateRange).map fun d => (d, (0 : ℚ), (0 : Nat))
  let filled := suggestions.foldl
    (fun acc s =>
      if (3 : ℚ) / 10 < s.confidence then
        bumpDay acc (dayOf s.suggestedSlot.start) s.task.duration
      else acc) init
  filled.map fun e =>
    { date := e.1, hours := e.2.1, taskCount := e.2.2
      intensity := classifyWorkloadIntensity e.2.1 }

/-- `doTimesSlotsOverlap`: `slot1.start < slot2.end && slot2.start <
slot1.end`. -/
def doTimesSlotsOverlap (slot1 slot2 : TimeSlot) : Bool :=
  if slot1.start < slot2.stop ∧ slot2.start < slot1.stop then true
  else false

/-- The `i < j` double loop of `detectSchedulingConflicts`, reporting each
overlapping pair as a high-severity conflict. -/
def overlapScan : List BSuggestion → List Conflict
  | [] => []
  | s :: rest =>
    (rest.filterMap fun t =>
      if doTimesSlotsOverlap s.suggestedSlot t.suggestedSlot then
        some ⟨.overlap, [s.task.id, t.task.id], .high⟩
      else none) ++ overlapScan rest

/-- The deadline pass of `detectSchedulingConflicts`: any suggestion with a
deadline whose slot ends after it yields a high-severity conflict. -/
def deadlineScan (suggestions : List BSuggestion) : List Conflict :=
  suggestions.filterMap fun s =>
    match s.task.deadline with
    | none => none
    | some dl =>
      if dl < s.suggestedSlot.stop then
        some ⟨.deadline_conflict, [s.task.id], .high⟩
      else none

/-- `detectSchedulingConflicts`: the overlap pairs followed by the deadline
violations. -/
def detectSchedulingConflicts (suggestions : List BSuggestion) :
    List Conflict :=
  overlapScan suggestions ++ deadlineScan suggestions

/-- `optimizeSchedule`: count the suggestions, call those with confidence
above 0.3 scheduled, record the tasks of the rest as `unscheduledTasks`,
and attach the workload report and the conflict list (the source literal
`0.3` is written `3 / 10`, the exact rational it denotes in this model). -/
def optimizeSchedule (suggestions : List BSuggestion)
    (_preferences : SchedulingPreferences) (dateRange : DateRange) :
    BScheduleOptimization :=
  { totalTasks := suggestions.length
    scheduledTasks :=
      (suggestions.filter fun s => (3 : ℚ) / 10 < s.confidence).length
    unscheduledTasks :=
      ((suggestions.filter fun s => s.confidence ≤ (3 : ℚ) / 10).map
        fun s => s.task)
    suggestions := suggestions
    workloadBalance := calculateWorkloadBalance suggestions dateRange
    conflicts := detectSchedulingConflicts suggestions }

/-- Claim-side priority bonus table (C7: urgent +30, high +20, medium +10,
low +5). -/
def priorityBonusSpec : Priority → Int
  | .urgent => 30
  | .high => 20
  | .medium => 10
  | .low => 5

/-- The time-of-day alignment term of the scorer (C7 is silent on it; it is
carried as its own summand of the decomposition, copied from the source
chain). -/
def todBonus (slot : TimeSlot) (task : ATask) : Int :=
  let hour := hourOf slot.start
  let analysis := task.analysis
  if analysis.optimal_time_of_day = .early_morning ∧ 6 ≤ hour ∧ hour < 8
  then 30
  else if analysis.optimal_time_of_day = .morning ∧ 8 ≤ hour ∧ hour < 12
  then 25
  else if analysis.optimal_time_of_day = .late_morning ∧ 10 ≤ hour ∧
    hour < 12 then 20
  else if analysis.optimal_time_of_day = .afternoon ∧ 12 ≤ hour ∧ hour < 17
  then 20
  else if analysis.optimal_time_of_day = .evening ∧ 17 ≤ hour ∧ hour < 22
  then 20
  else if analysis.optimal_time_of_day = .any then 10
  else 0

/-- The title-keyword term of the scorer (breakfast/morning, lunch, dinner
chunks), copied from the source; C7 is silent on it. -/
def titleBonus (slot : TimeSlot) (task : ATask) : Int :=
  let hour := hourOf slot.start
  let taskTitle := task.title.map Char.toLower
  (if containsSub taskTitle kwBreakfast || containsSub taskTitle kwMorning
   then
     if 7 ≤ hour ∧ hour ≤ 9 then 40
     else if 10 < hour then -30
     else 0
   else 0) +
  (if containsSub taskTitle kwLunch then
     if 11 ≤ hour ∧ hour ≤ 14 then 30 else -15
   else 0) +
  (if containsSub taskTitle kwDinner then
     if 17 ≤ hour ∧ hour ≤ 20 then 30 else -15
   else 0)

/-- The focus-block term of the scorer: 15 points once per focus block that
contains the slot start while the task requires high focus. -/
def focusBonus (slot : TimeSlot) (task : ATask)
    (preferences : SchedulingPreferences) : Int :=
  15 * ((preferences.focusTimeBlocks.filter fun focusBlock =>
    decide (isTimeInFocusBlock slot.start focusBlock ∧
      task.analysis.focus_level_required = .high)).length : Int)

/-- Claim-side deadline term (C7), with its conditions phrased on the raw
millisecond difference: +1000 within one minute of the deadline timestamp;
else +500 plus a proximity bonus of up to +100 on the deadline's calendar
day; else +50 less than one day before; +20 one-to-two days before; -1000
past the deadline; otherwise minus 20 points per day early (rounded as JS
`Math.round` rounds). -/
def deadlineBonusSpec (slot : TimeSlot) (task : ATask) : Int :=
  match task.deadline with
  | none => 0
  | some dl =>
    if (dl - slot.start).natAbs < 60000 then 1000
    else if dayOf dl = dayOf slot.start then
      500 + max 0 (100 -
        (((minuteOfDay dl - minuteOfDay slot.start).natAbs : Int)).ediv 10)
    else if 0 ≤ dl - slot.start ∧ dl - slot.start < 86400000 then 50
    else if 86400000 ≤ dl - slot.start ∧ dl - slot.start < 172800000 then 20
    else if dl - slot.start < 0 then -1000
    else -(jsRound (((dl - slot.start : Int) : ℚ) * 20 / 86400000))

/-- Claim-side duration-fit term (C7): +10 when the task occupies more than
80% and at most 100% of the slot, +5 when between 50% and 80%. -/
def durationFitBonusSpec (slot : TimeSlot) (task : ATask) : Int :=
  let ratio : ℚ :=
    ((task.duration * 60 * 1000 : Int) : ℚ) /
      ((slot.stop - slot.start : Int) : ℚ)
  if 4 / 5 < ratio ∧ ratio ≤ 1 then 10
  else if 1 / 2 < ratio ∧ ratio ≤ 4 / 5 then 5
  else 0

/-- The filtering rule exactly as claim C8 states it: a candidate is kept
iff it is long enough for `duration + bufferTime` and, when the task has a
deadline, either the task started at the slot finishes no later than the
deadline instant or the slot lies on the deadline's calendar day. -/
def claimSuitable (task : ATask) (preferences : SchedulingPreferences)
    (slot : TimeSlot) : Bool :=
  decide
      ((task.duration + preferences.bufferTime) * 60000 ≤
        slot.stop - slot.start) &&
    (match task.deadline with
     | none => true
     | some dl =>
       decide (addMinutes slot.start task.duration ≤ dl) ||
         decide (dayOf dl = dayOf slot.start))

/-- Total assigned hours of a list of suggestions (each task's duration in
minutes divided by 60). -/
def hoursOf (l : List BSuggestion) : ℚ :=
  (l.map fun s => (s.task.duration : ℚ) / 60).sum

end Backup

/-- Sample preferences: 09:00-17:00, Monday-Friday, no buffer, no focus
blocks. -/
def prefs0 : SchedulingPreferences := ⟨540, 1020, [1, 2, 3, 4, 5], 0, []⟩

/-- A second, different sample preferences value. -/
def prefs1 : SchedulingPreferences := ⟨480, 960, [0, 6], 30, []⟩

/-- Sample planning range: epoch days 0 to 2. -/
def range0 : DateRange := ⟨0, 172800000⟩

/-- A second, different sample range. -/
def range1 : DateRange := ⟨86400000, 259200000⟩

/-- A sample busy calendar event. -/
def ev0 : CalendarEvent := ⟨3600000, 7200000⟩

/-- A task with a deadline on epoch day 5 at 14:00, duration one hour. -/
def t1 : Task := ⟨1, ['a'], 60, some 482400000, .high, false⟩

/-- A task without a deadline. -/
def t2 : Task := ⟨2, ['b'], 30, none, .low, false⟩

/-- An invalid task: duration 0 (and a deadline, so the simple service
schedules it). -/
def tZero : Task := ⟨3, ['c'], 0, some 1000, .low, false⟩

/-- Two tasks whose deadline-time slots overlap (deadlines 30 minutes
apart, durations one hour). -/
def u1 : Task := ⟨4, ['u'], 60, some 0, .high, false⟩

/-- Second of the overlapping pair. -/
def u2 : Task := ⟨5, ['v'], 60, some 1800000, .high, false⟩

/-- The suggestion the simple service produces for `t1` at `now = 0`. -/
def sugT1 : AISchedulingSuggestion :=
  ⟨⟨1, 0⟩, t1, ⟨482400000, 486000000, true⟩, 1, ⟨482400000, ['a']⟩, [],
    ⟨60, .high⟩⟩

/-- An analyzed task for the backup engine whose best slot scores deeply
negative: low priority, morning preference unmet, deadline 100 days out
(epoch day 100 at 17:00). -/
def atask9 : Backup.ATask :=
  ⟨⟨9, ['x'], 60, some 8701200000, .low, false⟩, ⟨.morning, .low⟩⟩

/-- A 90-minute free window on epoch day 0 starting at 20:00. -/
def slot9 : TimeSlot := ⟨72000000, 77400000, true⟩

/-- An analyzed task for the C8 counterexample: duration one hour, deadline
epoch day 5 at 17:00. -/
def atask8 : Backup.ATask :=
  ⟨⟨8, ['y'], 60, some 493200000, .medium, false⟩, ⟨.any, .medium⟩⟩

/-- A two-hour candidate slot starting on epoch day 4 at 23:30: the task
would finish 00:30 on the deadline day, well before the 17:00 deadline,
but after the deadline day starts. -/
def slot8 : TimeSlot := ⟨430200000, 437400000, true⟩

/-- Analyzed version of `t1` for the backup pipeline. -/
def atask1 : Backup.ATask := ⟨t1, ⟨.any, .medium⟩⟩

/-- A backup suggestion with confidence at most 0.3, for the C1 witness. -/
def sugLow : Backup.BSuggestion :=
  ⟨⟨9, 0⟩, atask9, ⟨72000000, 75600000, true⟩, 1 / 10, []⟩

/-- A backup suggestion with confidence above 0.3 on epoch day 0, for the
C10 witness. -/
def sugHigh : Backup.BSuggestion :=
  ⟨⟨1, 0⟩, atask1, ⟨36000000, 39600000, true⟩, 9 / 10, []⟩

/-- Analyzed version of `u1`. -/
def atU1 : Backup.ATask := ⟨u1, ⟨.any, .medium⟩⟩

/-- Analyzed version of `u2`. -/
def atU2 : Backup.ATask := ⟨u2, ⟨.any, .medium⟩⟩

/-- A backup suggestion occupying 00:00-01:00 of epoch day 0 (its task's
deadline is instant 0, so its slot also ends past the deadline). -/
def sugO1 : Backup.BSuggestion := ⟨⟨4, 0⟩, atU1, ⟨0, 3600000, true⟩, 1, []⟩

/-- A backup suggestion occupying 00:30-01:30 of epoch day 0, overlapping
`sugO1`. -/
def sugO2 : Backup.BSuggestion :=
  ⟨⟨5, 0⟩, atU2, ⟨1800000, 5400000, true⟩, 1, []⟩

/-- Unfolding of the simple service's suggestion list. -/
theorem simple_suggestions_eq (tasks : List Task) (ev : List CalendarEvent)
    (p : SchedulingPreferences) (r : DateRange) (now : Millis) :
    (Simple.generateScheduleSuggestions tasks ev p r now).suggestions =
      tasks.filterMap (fun task =>
        match task.deadline with
        | none => none
        | some dl =>
          some { id := ⟨task.id, now⟩, task := task,
                 suggestedSlot := ⟨dl, addMinutes dl task.duration, true⟩,
                 confidence := 1, reasoning := ⟨dl, task.title⟩,
                 alternatives := [],
                 considerations := ⟨task.duration, task.priority⟩ }) := rfl

/-- Inversion: every simple suggestion comes from a task with a deadline
and has the record shape built in the loop. -/
theorem simple_sugg_inv {tasks : List Task} {ev : List CalendarEvent}
    {p : SchedulingPreferences} {r : DateRange} {now : Millis}
    {s : AISchedulingSuggestion}
    (hs : s ∈ (Simple.generateScheduleSuggestions tasks ev p r now).suggestions) :
    ∃ t ∈ tasks, ∃ dl, t.deadline = some dl ∧
      s = { id := ⟨t.id, now⟩, task := t,
            suggestedSlot := ⟨dl, addMinutes dl t.duration, true⟩,
            confidence := 1, reasoning := ⟨dl, t.title⟩, alternatives := [],
            considerations := ⟨t.duration, t.priority⟩ } := by
  rw [simple_suggestions_eq] at hs
  rcases List.mem_filterMap.mp hs with ⟨t, ht, hf⟩
  rcases hdl : t.deadline with _ | dl
  · rw [hdl] at hf
    cases hf
  · rw [hdl] at hf
    simp only [Option.some.injEq] at hf
    exact ⟨t, ht, dl, hdl, hf.symm⟩

/-- Introduction: every task with a deadline yields its suggestion. -/
theorem simple_sugg_mem {tasks : List Task} {t : Task} {dl : Millis}
    (ht : t ∈ tasks) (hdl : t.deadline = some dl) (ev : List CalendarEvent)
    (p : SchedulingPreferences) (r : DateRange) (now : Millis) :
    ({ id := ⟨t.id, now⟩, task := t,
       suggestedSlot := ⟨dl, addMinutes dl t.duration, true⟩,
       confidence := 1, reasoning := ⟨dl, t.title⟩, alternatives := [],
       considerations := ⟨t.duration, t.priority⟩ } : AISchedulingSuggestion)
      ∈ (Simple.generateScheduleSuggestions tasks ev p r now).suggestions := by
  rw [simple_suggestions_eq]
  refine List.mem_filterMap.mpr ⟨t, ht, ?_⟩
  rw [hdl]

/-- The id-stripped simple result depends on nothing but the task list. -/
theorem simple_eraseIds_const (tasks : List Task) (ev1 : List CalendarEvent)
    (p1 : SchedulingPreferences) (r1 : DateRange) (now1 : Millis)
    (ev2 : List CalendarEvent) (p2 : SchedulingPreferences) (r2 : DateRange)
    (now2 : Millis) :
    Simple.eraseIds (Simple.generateScheduleSuggestions tasks ev1 p1 r1 now1)
      = Simple.eraseIds
          (Simple.generateScheduleSuggestions tasks ev2 p2 r2 now2) := by
  have hmap : ∀ (now : Millis),
      ((Simple.generateScheduleSuggestions tasks ev1 p1 r1 now).suggestions).map
          Simple.eraseId =
        tasks.filterMap (fun t =>
          match t.deadline with
          | none => none
          | some dl =>
            some ((t, ⟨dl, addMinutes dl t.duration, true⟩, 1,
              ⟨dl, t.title⟩, [], ⟨t.duration, t.priority⟩) :
                Task × TimeSlot × ℚ × SimpleReasoning × List TimeSlot ×
                  SimpleConsiderations)) := by
    intro now
    rw [simple_suggestions_eq, List.map_filterMap]
    refine List.filterMap_congr (fun t _ => ?_)
    rcases t.deadline with _ | dl <;> rfl
  have hmap2 : ∀ (now : Millis),
      ((Simple.generateScheduleSuggestions tasks ev2 p2 r2 now).suggestions).map
          Simple.eraseId =
        tasks.filterMap (fun t =>
          match t.deadline with
          | none => none
          | some dl =>
            some ((t, ⟨dl, addMinutes dl t.duration, true⟩, 1,
              ⟨dl, t.title⟩, [], ⟨t.duration, t.priority⟩) :
                Task × TimeSlot × ℚ × SimpleReasoning × List TimeSlot ×
                  SimpleConsiderations)) := by
    intro now
    rw [simple_suggestions_eq, List.map_filterMap]
    refine List.filterMap_congr (fun t _ => ?_)
    rcases t.deadline with _ | dl <;> rfl
  have hlen :
      (Simple.generateScheduleSuggestions tasks ev1 p1 r1 now1).suggestions.length
        = (Simple.generateScheduleSuggestions
            tasks ev2 p2 r2 now2).suggestions.length := by
    rw [← List.length_map _ Simple.eraseId, ← List.length_map _ Simple.eraseId,
      hmap, hmap2]
  simp only [Simple.eraseIds, Prod.mk.injEq]
  exact ⟨rfl, hlen, rfl, by rw [hmap, hmap2], rfl, rfl⟩

/-- C2: for the shipped entry point `generateScheduleSuggestions`, two runs
on the same task list with any two values of `existingEvents`,
`preferences` and `dateRange` produce the same result up to the generated
id strings; every task with a deadline receives exactly the slot
`[deadline, deadline + duration]` with confidence 1, and only tasks with a
deadline receive suggestions — busy events and preferences are never
consulted. -/
theorem c2_simple_ignores_calendar (tasks : List Task)
    (ev1 : List CalendarEvent) (p1 : SchedulingPreferences) (r1 : DateRange)
    (now1 : Millis) (ev2 : List CalendarEvent) (p2 : SchedulingPreferences)
    (r2 : DateRange) (now2 : Millis) :
    Simple.eraseIds (Simple.generateScheduleSuggestions tasks ev1 p1 r1 now1)
      = Simple.eraseIds
          (Simple.generateScheduleSuggestions tasks ev2 p2 r2 now2) ∧
    (∀ t ∈ tasks, ∀ dl, t.deadline = some dl →
      ({ id := ⟨t.id, now1⟩, task := t,
         suggestedSlot := ⟨dl, addMinutes dl t.duration, true⟩,
         confidence := 1, reasoning := ⟨dl, t.title⟩, alternatives := [],
         considerations := ⟨t.duration, t.priority⟩ } : AISchedulingSuggestion)
        ∈ (Simple.generateScheduleSuggestions tasks ev1 p1 r1 now1).suggestions) ∧
    (∀ s ∈ (Simple.generateScheduleSuggestions tasks ev1 p1 r1 now1).suggestions,
      ∃ dl, s.task.deadline = some dl ∧
        s.suggestedSlot = ⟨dl, addMinutes dl s.task.duration, true⟩ ∧
        s.confidence = 1) ∧
    (∀ s ∈ (Simple.generateScheduleSuggestions tasks ev1 p1 r1 now1).suggestions,
      s.task.deadline.isSome) := by
  refine ⟨simple_eraseIds_const tasks ev1 p1 r1 now1 ev2 p2 r2 now2,
    fun t ht dl hdl => simple_sugg_mem ht hdl ev1 p1 r1 now1, ?_, ?_⟩
  · intro s hs
    rcases simple_sugg_inv hs with ⟨t, _, dl, hdl, hshape⟩
    subst hshape
    exact ⟨dl, hdl, rfl, rfl⟩
  · intro s hs
    rcases simple_sugg_inv hs with ⟨t, _, dl, hdl, hshape⟩
    subst hshape
    simp [hdl]

/-- C2 witness: concrete two runs with different events, preferences, range
and clock agree up to ids, and the deadline task `t1` receives its exact
deadline slot. -/
theorem c2_witness :
    Simple.eraseIds
        (Simple.generateScheduleSuggestions [t1, t2] [ev0] prefs0 range0 0)
      = Simple.eraseIds
          (Simple.generateScheduleSuggestions [t1, t2] [] prefs1 range1 5) ∧
    sugT1 ∈
      (Simple.generateScheduleSuggestions
        [t1, t2] [ev0] prefs0 range0 0).suggestions := by
  refine ⟨(c2_simple_ignores_calendar [t1, t2] [ev0] prefs0 range0 0 []
    prefs1 range1 5).1, ?_⟩
  exact (c2_simple_ignores_calendar [t1, t2] [ev0] prefs0 range0 0 []
    prefs1 range1 5).2.1 t1 (by decide) 482400000 (by decide)

/-- C3 counterexample: two runs of the shipped service on identical inputs
but at different wall-clock instants (`Date.now()` values 0 and 1) produce
different `ScheduleOptimization` values — the suggestion ids embed the
clock. -/
theorem c3_counterexample :
    Simple.generateScheduleSuggestions [t1] [] prefs0 range0 0 ≠
      Simple.generateScheduleSuggestions [t1] [] prefs0 range0 1 := by
  decide

/-- C3 (amended): two runs on identical inputs agree on every field except
the suggestion ids, whose stamp is exactly the run's `Date.now()` value;
when the two runs read the same clock value the results are identical,
field for field. -/
theorem c3_amended (tasks : List Task) (ev : List CalendarEvent)
    (p : SchedulingPreferences) (r : DateRange) (now1 now2 : Millis) :
    Simple.eraseIds (Simple.generateScheduleSuggestions tasks ev p r now1)
      = Simple.eraseIds
          (Simple.generateScheduleSuggestions tasks ev p r now2) ∧
    (now1 = now2 →
      Simple.generateScheduleSuggestions tasks ev p r now1 =
        Simple.generateScheduleSuggestions tasks ev p r now2) ∧
    (∀ s ∈ (Simple.generateScheduleSuggestions tasks ev p r now1).suggestions,
      s.id.stamp = now1) := by
  refine ⟨simple_eraseIds_const tasks ev p r now1 ev p r now2,
    fun h => by rw [h], ?_⟩
  intro s hs
  rcases simple_sugg_inv hs with ⟨t, _, dl, _, hshape⟩
  subst hshape
  rfl

/-- C3 witness: the amended statement at a concrete input. -/
theorem c3_amended_witness :
    Simple.eraseIds (Simple.generateScheduleSuggestions [t1] [] prefs0 range0 0)
      = Simple.eraseIds
          (Simple.generateScheduleSuggestions [t1] [] prefs0 range0 1) ∧
    sugT1.id.stamp = 0 := by
  refine ⟨(c3_amended [t1] [] prefs0 range0 0 1).1, ?_⟩
  exact (c3_amended [t1] [] prefs0 range0 0 1).2.2 sugT1 (by decide)

/-- C4 counterexample: a task with duration 0 (invalid per the spec) is not
rejected — the shipped service returns normally and schedules it on a
degenerate window whose end equals its start. -/
theorem c4_counterexample :
    (Simple.generateScheduleSuggestions [tZero] [] prefs0 range0 0).suggestions.map
        (fun s => (s.suggestedSlot.start, s.suggestedSlot.stop)) =
      [(1000, 1000)] ∧
    (Simple.generateScheduleSuggestions [tZero] [] prefs0 range0 0).totalTasks
      = 1 := by
  decide

/-- C4 (amended): the shipped `generateScheduleSuggestions` performs no
input validation at all — on every input, including tasks of non-positive
duration, it returns a normal result counting all tasks, and an invalid
task with a deadline still receives a suggestion, whose window is
degenerate (end at or before start). -/
theorem c4_amended (tasks : List Task) (ev : List CalendarEvent)
    (p : SchedulingPreferences) (r : DateRange) (now : Millis) :
    (Simple.generateScheduleSuggestions tasks ev p r now).totalTasks
      = tasks.length ∧
    (∀ t ∈ tasks, t.duration ≤ 0 → ∀ dl, t.deadline = some dl →
      ∃ s ∈ (Simple.generateScheduleSuggestions tasks ev p r now).suggestions,
        s.task = t ∧ s.suggestedSlot.stop ≤ s.suggestedSlot.start) := by
  refine ⟨rfl, ?_⟩
  intro t ht hdur dl hdl
  refine ⟨_, simple_sugg_mem ht hdl ev p r now, rfl, ?_⟩
  show addMinutes dl t.duration ≤ dl
  have h : t.duration * msPerMinute ≤ 0 :=
    mul_nonpos_of_nonpos_of_nonneg hdur (by norm_num [msPerMinute])
  simp only [addMinutes]
  linarith

/-- C4 witness: the amended statement at the concrete invalid input. -/
theorem c4_amended_witness :
    (Simple.generateScheduleSuggestions [tZero] [] prefs0 range0 0).totalTasks
      = 1 ∧
    ∃ s ∈ (Simple.generateScheduleSuggestions [tZero] [] prefs0 range0 0).suggestions,
      s.task = tZero ∧ s.suggestedSlot.stop ≤ s.suggestedSlot.start := by
  refine ⟨(c4_amended [tZero] [] prefs0 range0 0).1, ?_⟩
  exact (c4_amended [tZero] [] prefs0 range0 0).2 tZero (by decide)
    (by decide) 1000 (by decide)

/-- C5 counterexample: the shipped service produces two suggestions whose
slots overlap, yet returns an empty conflicts list — the overlap is
silently dropped at the entry point. -/
theorem c5_counterexample :
    (Simple.generateScheduleSuggestions [u1, u2] [] prefs0 range0 0).suggestions.map
        (fun s => s.suggestedSlot) =
      [⟨0, 3600000, true⟩, ⟨1800000, 5400000, true⟩] ∧
    Backup.doTimesSlotsOverlap ⟨0, 3600000, true⟩ ⟨1800000, 5400000, true⟩
      = true ∧
    (Simple.generateScheduleSuggestions [u1, u2] [] prefs0 range0 0).conflicts
      = [] := by
  decide

/-- The `i < j` overlap loop reports every overlapping pair. -/
theorem overlapScan_complete :
    ∀ (l : List Backup.BSuggestion) (i j : Nat) (hi : i < l.length)
      (hj : j < l.length), i < j →
      Backup.doTimesSlotsOverlap (l.get ⟨i, hi⟩).suggestedSlot
          (l.get ⟨j, hj⟩).suggestedSlot = true →
      (⟨.overlap, [(l.get ⟨i, hi⟩).task.id, (l.get ⟨j, hj⟩).task.id],
          .high⟩ : Conflict) ∈ Backup.overlapScan l := by
  intro l
  induction l with
  | nil =>
    intro i j hi hj hij hov
    simp at hi
  | cons s rest ih =>
    intro i j hi hj hij hov
    cases i with
    | zero =>
      cases j with
      | zero => omega
      | succ j =>
        refine List.mem_append_left _ (List.mem_filterMap.mpr ?_)
        have hj2 : j < rest.length := by simpa using hj
        refine ⟨rest.get ⟨j, hj2⟩, List.get_mem _ _ _, ?_⟩
        have hov2 : Backup.doTimesSlotsOverlap s.suggestedSlot
            (rest.get ⟨j, hj2⟩).suggestedSlot = true := hov
        show (if Backup.doTimesSlotsOverlap s.suggestedSlot
            (rest.get ⟨j, hj2⟩).suggestedSlot = true then
          some (⟨.overlap, [s.task.id, (rest.get ⟨j, hj2⟩).task.id], .high⟩ :
            Conflict) else none) = _
        rw [if_pos hov2]
        rfl
    | succ i =>
      cases j with
      | zero => omega
      | succ j =>
        refine List.mem_append_right _ ?_
        exact ih i j (by simpa using hi) (by simpa using hj) (by omega) hov

/-- The deadline pass reports every suggestion that ends past its
deadline. -/
theorem deadlineScan_complete (l : List Backup.BSuggestion) :
    ∀ s ∈ l, ∀ dl, s.task.deadline = some dl → dl < s.suggestedSlot.stop →
      (⟨.deadline_conflict, [s.task.id], .high⟩ : Conflict)
        ∈ Backup.deadlineScan l := by
  intro s hs dl hdl hlt
  refine List.mem_filterMap.mpr ⟨s, hs, ?_⟩
  rw [hdl]
  simp [hlt]

/-- C5 (amended): the backup helper `detectSchedulingConflicts` does report
every overlapping pair as a high-severity overlap conflict naming both task
ids, and every suggestion ending past its deadline as a high-severity
deadline conflict; the shipped `generateScheduleSuggestions`, however,
returns an empty conflicts list on every input, so overlaps between its
suggestions are never reported at the entry point. -/
theorem c5_amended :
    (∀ (l : List Backup.BSuggestion) (i j : Nat) (hi : i < l.length)
        (hj : j < l.length), i < j →
      Backup.doTimesSlotsOverlap (l.get ⟨i, hi⟩).suggestedSlot
          (l.get ⟨j, hj⟩).suggestedSlot = true →
      (⟨.overlap, [(l.get ⟨i, hi⟩).task.id, (l.get ⟨j, hj⟩).task.id],
          .high⟩ : Conflict) ∈ Backup.detectSchedulingConflicts l) ∧
    (∀ (l : List Backup.BSuggestion), ∀ s ∈ l, ∀ dl,
      s.task.deadline = some dl → dl < s.suggestedSlot.stop →
      (⟨.deadline_conflict, [s.task.id], .high⟩ : Conflict)
        ∈ Backup.detectSchedulingConflicts l) ∧
    (∀ (tasks : List Task) (ev : List CalendarEvent)
        (p : SchedulingPreferences) (r : DateRange) (now : Millis),
      (Simple.generateScheduleSuggestions tasks ev p r now).conflicts
        = []) := by
  refine ⟨?_, ?_, fun tasks ev p r now => rfl⟩
  · intro l i j hi hj hij hov
    exact List.mem_append_left _ (overlapScan_complete l i j hi hj hij hov)
  · intro l s hs dl hdl hlt
    exact List.mem_append_right _ (deadlineScan_complete l s hs dl hdl hlt)

/-- C5 witness: on a concrete pair of overlapping suggestions the detector
reports the overlap (and the deadline violation of the first). -/
theorem c5_amended_witness :
    (⟨.overlap, [4, 5], .high⟩ : Conflict)
      ∈ Backup.detectSchedulingConflicts [sugO1, sugO2] ∧
    (⟨.deadline_conflict, [4], .high⟩ : Conflict)
      ∈ Backup.detectSchedulingConflicts [sugO1, sugO2] := by
  constructor
  · exact c5_amended.1 [sugO1, sugO2] 0 1 (by decide) (by decide)
      (by decide) (by decide)
  · exact c5_amended.2.1 [sugO1, sugO2] sugO1 (by decide) 0 (by decide)
      (by decide)

/-- The fuel argument of `detailLoop` does not influence its value once it
dominates the guard: any two sufficient budgets give the same list. -/
theorem detailLoop_fuel_irrelevant (slotStop minNeeded : Int) :
    ∀ (fuel fuel' : Nat) (cur : Int),
      slotStop - minNeeded - cur < 3600000 * fuel →
      slotStop - minNeeded - cur < 3600000 * fuel' →
      Backup.detailLoop slotStop minNeeded fuel cur
        = Backup.detailLoop slotStop minNeeded fuel' cur := by
  intro fuel
  induction fuel with
  | zero =>
    intro fuel' cur h h2
    cases fuel' with
    | zero => rfl
    | succ fuel' =>
      have hcond : ¬ (cur + minNeeded ≤ slotStop) := by omega
      simp [Backup.detailLoop, hcond]
  | succ fuel ih =>
    intro fuel' cur h h2
    cases fuel' with
    | zero =>
      have hcond : ¬ (cur + minNeeded ≤ slotStop) := by omega
      simp [Backup.detailLoop, hcond]
    | succ fuel' =>
      have hL : Backup.detailLoop slotStop minNeeded (fuel + 1) cur
          = if cur + minNeeded ≤ slotStop then
              ⟨cur, min (cur + 3600000) slotStop, true⟩ ::
                Backup.detailLoop slotStop minNeeded fuel (cur + 3600000)
            else [] := rfl
      have hR : Backup.detailLoop slotStop minNeeded (fuel' + 1) cur
          = if cur + minNeeded ≤ slotStop then
              ⟨cur, min (cur + 3600000) slotStop, true⟩ ::
                Backup.detailLoop slotStop minNeeded fuel' (cur + 3600000)
            else [] := rfl
      rw [hL, hR]
      by_cases hcond : cur + minNeeded ≤ slotStop
      · rw [if_pos hcond, if_pos hcond,
          ih fuel' (cur + 3600000) (by omega) (by omega)]
      · rw [if_neg hcond, if_neg hcond]

/-- With a sufficient budget, `detailLoop` satisfies the source while
loop's fixpoint equation — the budget never cuts the loop short. -/
theorem detailLoop_unfold (slotStop minNeeded cur : Int) (fuel : Nat)
    (h : slotStop - minNeeded - cur < 3600000 * fuel) :
    Backup.detailLoop slotStop minNeeded fuel cur =
      if cur + minNeeded ≤ slotStop then
        ⟨cur, min (cur + 3600000) slotStop, true⟩ ::
          Backup.detailLoop slotStop minNeeded fuel (cur + 3600000)
      else [] := by
  cases fuel with
  | zero =>
    have hcond : ¬ (cur + minNeeded ≤ slotStop) := by omega
    simp [Backup.detailLoop, hcond]
  | succ fuel =>
    have hL : Backup.detailLoop slotStop minNeeded (fuel + 1) cur
        = if cur + minNeeded ≤ slotStop then
            ⟨cur, min (cur + 3600000) slotStop, true⟩ ::
              Backup.detailLoop slotStop minNeeded fuel (cur + 3600000)
          else [] := rfl
    rw [hL]
    by_cases hcond : cur + minNeeded ≤ slotStop
    · rw [if_pos hcond, if_pos hcond,
        detailLoop_fuel_irrelevant slotStop minNeeded fuel (fuel + 1)
          (cur + 3600000) (by omega) (by omega)]
    · rw [if_neg hcond, if_neg hcond]

/-- The budget `createDetailedTimeSlots` passes is sufficient in the sense
of `detailLoop_unfold`. -/
theorem createDetailed_budget_sufficient (slot : TimeSlot)
    (taskDuration : Int) :
    slot.stop - (taskDuration + 30) * 60 * 1000 - slot.start <
      3600000 *
        ((slot.stop - slot.start - (taskDuration + 30) * 60 * 1000).toNat
          + 1) := by
  have h : ∀ (a b d : Int), a - (d + 30) * 60 * 1000 - b <
      3600000 * ((a - b - (d + 30) * 60 * 1000).toNat + 1) := by
    intro a b d
    omega
  exact h slot.stop slot.start taskDuration

unseal List.merge List.mergeSort Rat.inv Rat.mul Rat.add Rat.sub in
/-- C1 counterexample: run the backup pipeline on one task and an empty
slot pool — every candidate of the task is (vacuously) filtered out, yet
the returned `unscheduledTasks` is empty: the task is dropped from the
result's lists instead of being recorded unassigned. -/
theorem c1_counterexample :
    (Backup.optimizeSchedule
        (Backup.generateTaskPlacements [atask1] [] prefs0 0) prefs0
        range0).unscheduledTasks = [] ∧
    (Backup.optimizeSchedule
        (Backup.generateTaskPlacements [atask1] [] prefs0 0) prefs0
        range0).suggestions = [] ∧
    Backup.suitableSlotsFor atask1 [] prefs0 = [] := by
  decide

/-- C1 (amended): `optimizeSchedule` records as `unscheduledTasks` exactly
the tasks of suggestions whose confidence is at most 0.3; in particular
every unscheduled task belongs to some returned suggestion, so a task for
which no candidate survived filtering (and which therefore received no
suggestion at all) never appears in `unscheduledTasks`. -/
theorem c1_amended (suggestions : List Backup.BSuggestion)
    (p : SchedulingPreferences) (r : DateRange) :
    (Backup.optimizeSchedule suggestions p r).unscheduledTasks
      = (suggestions.filter fun s => s.confidence ≤ (3 : ℚ) / 10).map
          (fun s => s.task) ∧
    ∀ t ∈ (Backup.optimizeSchedule suggestions p r).unscheduledTasks,
      ∃ s ∈ (Backup.optimizeSchedule suggestions p r).suggestions,
        s.task = t ∧ s.confidence ≤ (3 : ℚ) / 10 := by
  refine ⟨rfl, ?_⟩
  intro t ht
  rcases List.mem_map.mp ht with ⟨s, hs, rfl⟩
  rcases List.mem_filter.mp hs with ⟨hmem, hconf⟩
  refine ⟨s, hmem, rfl, ?_⟩
  have := of_decide_eq_true hconf
  linarith [this]

unseal List.merge List.mergeSort Rat.inv Rat.mul Rat.add Rat.sub in
/-- C1 witness: the amended statement at a concrete low-confidence
suggestion. -/
theorem c1_amended_witness :
    (Backup.optimizeSchedule [sugLow] prefs0 range0).unscheduledTasks
      = [atask9] ∧
    ∃ s ∈ (Backup.optimizeSchedule [sugLow] prefs0 range0).suggestions,
      s.task = atask9 ∧ s.confidence ≤ (3 : ℚ) / 10 := by
  refine ⟨((c1_amended [sugLow] prefs0 range0).1).trans (by decide), ?_⟩
  exact (c1_amended [sugLow] prefs0 range0).2 atask9 (by decide)

/-- The sorted scored list is a permutation of the scored list. -/
theorem sortedScored_perm (task : Backup.ATask) (slots : List TimeSlot)
    (p : SchedulingPreferences) :
    (Backup.sortedScoredFor task slots p).Perm
      (Backup.scoredSlotsFor task slots p) :=
  List.mergeSort_perm _ _

/-- The sorted scored list is pairwise descending in score. -/
theorem sortedScored_sorted (task : Backup.ATask) (slots : List TimeSlot)
    (p : SchedulingPreferences) :
    List.Pairwise (fun a b : TimeSlot × Int => b.2 ≤ a.2)
      (Backup.sortedScoredFor task slots p) := by
  have h := @List.sorted_mergeSort (TimeSlot × Int)
    (fun a b => decide (b.2 ≤ a.2))
    (fun a b c hab hbc => by
      have h1 := of_decide_eq_true hab
      have h2 := of_decide_eq_true hbc
      exact decide_eq_true_eq.mpr (le_trans h2 h1))
    (fun a b => by
      rcases le_total b.2 a.2 with h | h <;> simp [h])
    (Backup.scoredSlotsFor task slots p)
  exact h.imp fun hab => of_decide_eq_true hab

/-- Inversion for `findOptimalSlotForTask`: a returned suggestion is built
from a maximal-scoring suitable candidate. -/
theorem findOptimal_inv {task : Backup.ATask} {slots : List TimeSlot}
    {p : SchedulingPreferences} {now : Millis} {s : Backup.BSuggestion}
    (h : Backup.findOptimalSlotForTask task slots p now = some s) :
    ∃ best : TimeSlot × Int,
      best ∈ Backup.scoredSlotsFor task slots p ∧
      (∀ x ∈ Backup.scoredSlotsFor task slots p, x.2 ≤ best.2) ∧
      s.task = task ∧ s.id = ⟨task.id, now⟩ ∧
      s.suggestedSlot =
        ⟨best.1.start, addMinutes best.1.start task.duration, true⟩ ∧
      s.confidence = min ((best.2 : ℚ) / 100) 1 := by
  unfold Backup.findOptimalSlotForTask at h
  rcases hs : Backup.sortedScoredFor task slots p with _ | ⟨best, rest⟩
  · rw [hs] at h
    cases h
  · rw [hs] at h
    simp only [Option.some.injEq] at h
    refine ⟨best, ?_, ?_, ?_, ?_, ?_, ?_⟩
    · exact (sortedScored_perm task slots p).mem_iff.mp (hs ▸ List.mem_cons_self _ _)
    · intro x hx
      have hx2 : x ∈ Backup.sortedScoredFor task slots p :=
        (sortedScored_perm task slots p).mem_iff.mpr hx
      rw [hs] at hx2
      rcases List.mem_cons.mp hx2 with rfl | hx3
      · exact le_refl _
      · have hp := sortedScored_sorted task slots p
        rw [hs] at hp
        exact List.rel_of_pairwise_cons hp hx3
    · rw [← h]
    · rw [← h]
    · rw [← h]
    · rw [← h]

/-- C6: in both implementations, every suggested slot's length equals the
task's duration exactly (`end - start` in milliseconds equals `duration`
minutes times 60000). -/
theorem c6_slot_length :
    (∀ (tasks : List Task) (ev : List CalendarEvent)
        (p : SchedulingPreferences) (r : DateRange) (now : Millis),
      ∀ s ∈ (Simple.generateScheduleSuggestions tasks ev p r now).suggestions,
        s.suggestedSlot.stop - s.suggestedSlot.start
          = s.task.duration * 60000) ∧
    (∀ (task : Backup.ATask) (slots : List TimeSlot)
        (p : SchedulingPreferences) (now : Millis) (s : Backup.BSuggestion),
      Backup.findOptimalSlotForTask task slots p now = some s →
        s.suggestedSlot.stop - s.suggestedSlot.start
          = s.task.duration * 60000) := by
  constructor
  · intro tasks ev p r now s hs
    rcases simple_sugg_inv hs with ⟨t, _, dl, _, hshape⟩
    subst hshape
    show addMinutes dl t.duration - dl = t.duration * 60000
    simp only [addMinutes, msPerMinute]
    ring
  · intro task slots p now s h
    rcases findOptimal_inv h with ⟨best, _, _, htask, _, hslot, _⟩
    rw [hslot, htask]
    show addMinutes best.1.start task.duration - best.1.start
      = task.duration * 60000
    simp only [addMinutes, msPerMinute]
    ring

unseal List.merge List.mergeSort Rat.inv Rat.mul Rat.add Rat.sub in
/-- C6 witness: the slot-length law at concrete suggestions of both
implementations. -/
theorem c6_witness :
    sugT1.suggestedSlot.stop - sugT1.suggestedSlot.start
      = sugT1.task.duration * 60000 ∧
    ∃ s, Backup.findOptimalSlotForTask atask9 [slot9] prefs0 0 = some s ∧
      s.suggestedSlot.stop - s.suggestedSlot.start
        = s.task.duration * 60000 := by
  constructor
  · exact c6_slot_length.1 [t1] [ev0] prefs0 range0 0 sugT1 (by decide)
  · rcases hopt : Backup.findOptimalSlotForTask atask9 [slot9] prefs0 0
      with _ | s
    · have hsome : (Backup.findOptimalSlotForTask atask9 [slot9]
          prefs0 0).isSome = true := by decide
      rw [hopt] at hsome
      cases hsome
    · exact ⟨s, rfl, c6_slot_length.2 atask9 [slot9] prefs0 0 s hopt⟩

unseal List.merge List.mergeSort Rat.inv Rat.mul Rat.add Rat.sub in
/-- C9 counterexample: a concrete run of `findOptimalSlotForTask` whose
chosen best score is deeply negative returns confidence -1933/100 — the
confidence is not floored at 0 and lies outside [0, 1]. -/
theorem c9_counterexample :
    (Backup.findOptimalSlotForTask atask9 [slot9] prefs0 0).map
        (fun s => s.confidence) = some (-(1933 : ℚ) / 100) ∧
    -(1933 : ℚ) / 100 < 0 := by
  constructor
  · decide
  · norm_num

/-- C9 (amended): every suggestion's confidence equals
`min(score / 100, 1)` where `score` is the maximal score among the
surviving candidates; it is therefore always at most 1, but it is not
floored at 0 and can be negative when the best score is. -/
theorem c9_amended (task : Backup.ATask) (slots : List TimeSlot)
    (p : SchedulingPreferences) (now : Millis) (s : Backup.BSuggestion)
    (h : Backup.findOptimalSlotForTask task slots p now = some s) :
    s.confidence ≤ 1 ∧
    ∃ slot ∈ Backup.suitableSlotsFor task slots p,
      s.confidence
        = min ((Backup.scoreSlotForTask slot task p : ℚ) / 100) 1 ∧
      ∀ sl ∈ Backup.suitableSlotsFor task slots p,
        Backup.scoreSlotForTask sl task p
          ≤ Backup.scoreSlotForTask slot task p := by
  rcases findOptimal_inv h with ⟨best, hmem, hmax, _, _, _, hconf⟩
  rcases List.mem_map.mp hmem with ⟨slot, hslot, hpair⟩
  refine ⟨hconf ▸ min_le_right _ _, slot, hslot, ?_, ?_⟩
  · rw [hconf, ← hpair]
  · intro sl hsl
    have := hmax (sl, Backup.scoreSlotForTask sl task p)
      (List.mem_map.mpr ⟨sl, hsl, rfl⟩)
    rw [← hpair] at this
    exact this

/-- C8 counterexample: a two-hour candidate starting 23:30 the evening
before a 17:00 deadline is long enough (duration 60 + buffer 0) and the
task started there would finish at 00:30, well before the deadline
instant — by the claim it must be kept — yet the filter removes it,
because the code requires earlier-day slots to finish before the deadline
DAY begins. -/
theorem c8_counterexample :
    Backup.slotSuitable atask8 prefs0 slot8 = false ∧
    Backup.claimSuitable atask8 prefs0 slot8 = true ∧
    addMinutes slot8.start 60 ≤ 493200000 := by
  decide

/-- C8 (amended): during candidate filtering a slot is removed iff (a) it
is shorter than `duration + bufferTime` minutes, or (b) it does not lie on
the deadline's calendar day and either starts at or after the deadline or
the task started there would not finish by the START of the deadline's
calendar day; slots on the deadline day itself are always kept (even past
the literal deadline instant). -/
theorem c8_amended (task : Backup.ATask) (p : SchedulingPreferences)
    (slot : TimeSlot) :
    Backup.slotSuitable task p slot = true ↔
      ((task.duration + p.bufferTime) * 60 * 1000 ≤ slot.stop - slot.start ∧
        ∀ dl, task.deadline = some dl →
          (dayOf dl = dayOf slot.start ∨
            (slot.start < dl ∧
              addMinutes slot.start task.duration ≤ startOfDay dl))) := by
  rcases hdl : task.deadline with _ | dl
  · simp only [Backup.slotSuitable, hdl, Bool.and_eq_true,
      decide_eq_true_eq, and_true]
    constructor
    · intro h
      refine ⟨h, fun dl h2 => ?_⟩
      cases h2
    · exact fun h => h.1
  · simp only [Backup.slotSuitable, hdl, Bool.and_eq_true,
      decide_eq_true_eq]
    constructor
    · rintro ⟨h, h2⟩
      refine ⟨h, fun dl2 h3 => ?_⟩
      injection h3 with h3
      subst h3
      by_cases hday : dayOf dl = dayOf slot.start
      · exact Or.inl hday
      · rw [if_neg hday] at h2
        by_cases hlt : slot.start < dl
        · rw [if_pos hlt] at h2
          exact Or.inr ⟨hlt, of_decide_eq_true h2⟩
        · rw [if_neg hlt] at h2
          cases h2
    · rintro ⟨h, h2⟩
      refine ⟨h, ?_⟩
      rcases h2 dl rfl with h3 | ⟨h3, h4⟩
      · rw [if_pos h3]
      · by_cases hday : dayOf dl = dayOf slot.start
        · rw [if_pos hday]
        · rw [if_neg hday, if_pos h3]
          exact decide_eq_true h4

/-- C8 witness: the amended characterisation at a concrete slot on the
deadline day, which the filter keeps. -/
theorem c8_amended_witness :
    Backup.slotSuitable atask8 prefs0 ⟨468000000, 471600000, true⟩
      = true := by
  refine (c8_amended atask8 prefs0 ⟨468000000, 471600000, true⟩).mpr
    ⟨by decide, fun dl h => ?_⟩
  have h2 : (some 493200000 : Option Millis) = some dl := h
  injection h2 with h2
  subst h2
  exact Or.inl (by decide)

unseal List.merge List.mergeSort Rat.inv Rat.mul Rat.add Rat.sub in
/-- C9 witness: the amended statement at the concrete negative-score
input. -/
theorem c9_amended_witness :
    ∃ s, Backup.findOptimalSlotForTask atask9 [slot9] prefs0 0 = some s ∧
      s.confidence ≤ 1 := by
  rcases hopt : Backup.findOptimalSlotForTask atask9 [slot9] prefs0 0
    with _ | s
  · have hsome : (Backup.findOptimalSlotForTask atask9 [slot9]
        prefs0 0).isSome = true := by decide
    rw [hopt] at hsome
    cases hsome
  · exact ⟨s, rfl, (c9_amended atask9 [slot9] prefs0 0 s hopt).1⟩

/-- Bridging lemma: the scorer's fractional days-until-deadline lies in
[0, 1) iff the millisecond difference lies in [0, 86400000). -/
theorem qday_nonneg_lt_one (a : Int) :
    (0 ≤ (a : ℚ) / 86400000 ∧ (a : ℚ) / 86400000 < 1) ↔
      (0 ≤ a ∧ a < 86400000) := by
  have hD : (0 : ℚ) < 86400000 := by norm_num
  rw [le_div_iff hD, div_lt_one hD, zero_mul]
  exact_mod_cast Iff.rfl

/-- Bridging lemma: days-until-deadline in [1, 2) iff the millisecond
difference lies in [86400000, 172800000). -/
theorem qday_one_le_lt_two (a : Int) :
    (1 ≤ (a : ℚ) / 86400000 ∧ (a : ℚ) / 86400000 < 2) ↔
      (86400000 ≤ a ∧ a < 172800000) := by
  have hD : (0 : ℚ) < 86400000 := by norm_num
  rw [le_div_iff hD, div_lt_iff hD, one_mul]
  norm_num
  exact_mod_cast Iff.rfl

/-- Bridging lemma: a negative fractional day count means a negative
millisecond difference. -/
theorem qday_neg (a : Int) : ((a : ℚ) / 86400000 < 0) ↔ (a < 0) := by
  have hD : (0 : ℚ) < 86400000 := by norm_num
  rw [div_lt_iff hD, zero_mul]
  exact_mod_cast Iff.rfl

/-- The focus-block loop of the scorer adds 15 once per matching block. -/
theorem focus_foldl (slot : TimeSlot) (task : Backup.ATask)
    (l : List FocusBlock) (s0 : Int) :
    l.foldl (fun sc focusBlock =>
        if Backup.isTimeInFocusBlock slot.start focusBlock ∧
            task.analysis.focus_level_required = .high
        then sc + 15 else sc) s0
      = s0 + 15 * ((l.filter fun focusBlock =>
          decide (Backup.isTimeInFocusBlock slot.start focusBlock ∧
            task.analysis.focus_level_required = .high)).length : Int) := by
  induction l generalizing s0 with
  | nil => simp
  | cons fb l ih =>
    by_cases h : Backup.isTimeInFocusBlock slot.start fb ∧
        task.analysis.focus_level_required = Backup.FocusLevel.high
    · simp only [List.foldl_cons, if_pos h, ih]
      have hcount : ((fb :: l).filter fun focusBlock =>
          decide (Backup.isTimeInFocusBlock slot.start focusBlock ∧
            task.analysis.focus_level_required = .high)).length
          = ((l.filter fun focusBlock =>
          decide (Backup.isTimeInFocusBlock slot.start focusBlock ∧
            task.analysis.focus_level_required = .high)).length) + 1 := by
        simp [List.filter_cons, h]
      rw [hcount]
      push_cast
      ring
    · simp only [List.foldl_cons, if_neg h, ih]
      have hcount : ((fb :: l).filter fun focusBlock =>
          decide (Backup.isTimeInFocusBlock slot.start focusBlock ∧
            task.analysis.focus_level_required = .high)).length
          = (l.filter fun focusBlock =>
          decide (Backup.isTimeInFocusBlock slot.start focusBlock ∧
            task.analysis.focus_level_required = .high)).length := by
        simp [List.filter_cons, h]
      rw [hcount]

/-- The scorer's deadline chunk, with its fractional-day conditions,
equals the claim-side chunk phrased on millisecond differences. -/
theorem deadline_chunk_eq (start dl : Int) :
    (if (start - dl).natAbs < 60000 then (1000 : Int)
     else if dayOf dl = dayOf start then
       500 + max 0 (100 -
         (((minuteOfDay dl - minuteOfDay start).natAbs : Int)).ediv 10)
     else if 0 ≤ ((dl - start : Int) : ℚ) / 86400000 ∧
         ((dl - start : Int) : ℚ) / 86400000 < 1 then 50
     else if 1 ≤ ((dl - start : Int) : ℚ) / 86400000 ∧
         ((dl - start : Int) : ℚ) / 86400000 < 2 then 20
     else if ((dl - start : Int) : ℚ) / 86400000 < 0 then -1000
     else -(jsRound (((dl - start : Int) : ℚ) / 86400000 * 20)))
    =
    (if (dl - start).natAbs < 60000 then 1000
     else if dayOf dl = dayOf start then
       500 + max 0 (100 -
         (((minuteOfDay dl - minuteOfDay start).natAbs : Int)).ediv 10)
     else if 0 ≤ dl - start ∧ dl - start < 86400000 then 50
     else if 86400000 ≤ dl - start ∧ dl - start < 172800000 then 20
     else if dl - start < 0 then -1000
     else -(jsRound (((dl - start : Int) : ℚ) * 20 / 86400000))) := by
  have hna : (start - dl).natAbs = (dl - start).natAbs := by omega
  have hjr : ((dl - start : Int) : ℚ) / 86400000 * 20
      = ((dl - start : Int) : ℚ) * 20 / 86400000 := by ring
  simp only [hna, hjr, qday_nonneg_lt_one, qday_one_le_lt_two, qday_neg]

/-- C7: the scorer's result decomposes as base 50 plus the time-of-day
term, the title-keyword term, the priority bonus (urgent +30, high +20,
medium +10, low +5), the claim's deadline term (+1000 within one minute of
the deadline; +500 plus a proximity bonus of at most +100 on the deadline
day; +50 under a day early; +20 one-to-two days early; -1000 past the
deadline; else minus 20 points per day early, rounded), the focus-block
term and the duration-fit bonus (+10 above 80% up to 100% occupancy, +5
between 50% and 80%); the deadline-day proximity bonus always lies in
[0, 100]. -/
theorem c7_score_decomposition (slot : TimeSlot) (task : Backup.ATask)
    (preferences : SchedulingPreferences) :
    Backup.scoreSlotForTask slot task preferences
      = 50 + Backup.todBonus slot task + Backup.titleBonus slot task
        + Backup.priorityBonusSpec task.priority
        + Backup.deadlineBonusSpec slot task
        + Backup.focusBonus slot task preferences
        + Backup.durationFitBonusSpec slot task ∧
    (Backup.priorityBonusSpec .urgent = 30 ∧
      Backup.priorityBonusSpec .high = 20 ∧
      Backup.priorityBonusSpec .medium = 10 ∧
      Backup.priorityBonusSpec .low = 5) ∧
    (∀ dl, task.deadline = some dl →
      ¬ (dl - slot.start).natAbs < 60000 → dayOf dl = dayOf slot.start →
      ∃ prox, 0 ≤ prox ∧ prox ≤ 100 ∧
        Backup.deadlineBonusSpec slot task = 500 + prox) := by
  refine ⟨?_, ⟨rfl, rfl, rfl, rfl⟩, ?_⟩
  · rcases hdl : task.deadline with _ | dl <;>
      rcases hp : task.priority <;>
      simp only [Backup.scoreSlotForTask, Backup.todBonus,
        Backup.titleBonus, Backup.deadlineBonusSpec,
        Backup.durationFitBonusSpec, Backup.focusBonus,
        Backup.priorityBonusSpec, hdl, hp] <;>
      rw [focus_foldl] <;>
      try rw [deadline_chunk_eq slot.start dl]
    all_goals ring
  · intro dl hdl hnotEx hday
    simp only [Backup.deadlineBonusSpec, hdl]
    rw [if_neg hnotEx, if_pos hday]
    refine ⟨_, le_max_left _ _, ?_, rfl⟩
    have ht : (0 : Int) ≤
        (((minuteOfDay dl - minuteOfDay slot.start).natAbs : Int)).ediv 10 :=
      Int.ediv_nonneg (by positivity) (by norm_num)
    exact max_le (by norm_num) (by omega)

/-- C7 witness: the decomposition and the proximity-bonus bound at a
concrete deadline-day slot. -/
theorem c7_witness :
    Backup.scoreSlotForTask ⟨468000000, 471600000, true⟩ atask8 prefs0
      = 50 + Backup.todBonus ⟨468000000, 471600000, true⟩ atask8
        + Backup.titleBonus ⟨468000000, 471600000, true⟩ atask8
        + Backup.priorityBonusSpec atask8.priority
        + Backup.deadlineBonusSpec ⟨468000000, 471600000, true⟩ atask8
        + Backup.focusBonus ⟨468000000, 471600000, true⟩ atask8 prefs0
        + Backup.durationFitBonusSpec ⟨468000000, 471600000, true⟩ atask8 ∧
    ∃ prox, 0 ≤ prox ∧ prox ≤ 100 ∧
      Backup.deadlineBonusSpec ⟨468000000, 471600000, true⟩ atask8
        = 500 + prox := by
  refine ⟨(c7_score_decomposition ⟨468000000, 471600000, true⟩ atask8
    prefs0).1, ?_⟩
  exact (c7_score_decomposition ⟨468000000, 471600000, true⟩ atask8
    prefs0).2.2 493200000 rfl (by decide) (by decide)

/-- `bumpDay` does not change the key column. -/
theorem bumpDay_keys (acc : List (Int × ℚ × Nat)) (day durMin : Int) :
    (Backup.bumpDay acc day durMin).map Prod.fst = acc.map Prod.fst := by
  induction acc with
  | nil => rfl
  | cons e rest ih =>
    obtain ⟨d, h, c⟩ := e
    by_cases hd : d = day
    · simp [Backup.bumpDay, hd]
    · simp [Backup.bumpDay, hd, ih]

/-- On an accumulator with distinct keys, `bumpDay` is the pointwise
update of the (unique) entry carrying the key. -/
theorem bumpDay_eq_map (acc : List (Int × ℚ × Nat)) (day durMin : Int)
    (hnd : (acc.map Prod.fst).Nodup) :
    Backup.bumpDay acc day durMin
      = acc.map fun e =>
          if e.1 = day then (e.1, e.2.1 + (durMin : ℚ) / 60, e.2.2 + 1)
          else e := by
  induction acc with
  | nil => rfl
  | cons e rest ih =>
    obtain ⟨d, h, c⟩ := e
    rw [List.map_cons, List.nodup_cons] at hnd
    by_cases hd : d = day
    · simp only [Backup.bumpDay, if_pos hd, List.map_cons]
      refine congrArg (List.cons _) ?_
      have hrest : rest.map (fun e =>
          if e.1 = day then (e.1, e.2.1 + (durMin : ℚ) / 60, e.2.2 + 1)
          else e) = rest.map id := by
        refine List.map_congr_left fun x hx => ?_
        have hxne : x.1 ≠ day := by
          intro hxe
          have hmem : x.1 ∈ rest.map Prod.fst :=
            List.mem_map_of_mem Prod.fst hx
          rw [hxe, ← hd] at hmem
          exact hnd.1 hmem
        rw [if_neg hxne]
        rfl
      rw [hrest, List.map_id]
    · simp only [Backup.bumpDay, if_neg hd, List.map_cons]
      refine congrArg (List.cons _) (ih hnd.2)

/-- One step of the workload map: `hoursOf` over a cons. -/
theorem hoursOf_cons (s : Backup.BSuggestion)
    (l : List Backup.BSuggestion) :
    Backup.hoursOf (s :: l)
      = (s.task.duration : ℚ) / 60 + Backup.hoursOf l := by
  simp [Backup.hoursOf]

/-- The accumulation loop of `calculateWorkloadBalance`: starting from any
accumulator with distinct keys, it adds to each entry the hours and count
of the above-0.3-confidence suggestions falling on that entry's day. -/
theorem workload_foldl (sugg : List Backup.BSuggestion) :
    ∀ (entries : List (Int × ℚ × Nat)), (entries.map Prod.fst).Nodup →
      sugg.foldl (fun acc s =>
          if (3 : ℚ) / 10 < s.confidence then
            Backup.bumpDay acc (dayOf s.suggestedSlot.start) s.task.duration
          else acc) entries
        = entries.map fun e =>
            (e.1,
             e.2.1 + Backup.hoursOf (sugg.filter fun s =>
               decide ((3 : ℚ) / 10 < s.confidence) &&
                 decide (dayOf s.suggestedSlot.start = e.1)),
             e.2.2 + (sugg.filter fun s =>
               decide ((3 : ℚ) / 10 < s.confidence) &&
                 decide (dayOf s.suggestedSlot.start = e.1)).length) := by
  induction sugg with
  | nil =>
    intro entries _
    simp [Backup.hoursOf]
  | cons s rest ih =>
    intro entries hnd
    rw [List.foldl_cons]
    by_cases hc : (3 : ℚ) / 10 < s.confidence
    · rw [if_pos hc]
      have hnd2 : ((Backup.bumpDay entries
          (dayOf s.suggestedSlot.start) s.task.duration).map Prod.fst).Nodup := by
        rw [bumpDay_keys]
        exact hnd
      rw [ih _ hnd2, bumpDay_eq_map _ _ _ hnd, List.map_map]
      refine List.map_congr_left fun e _ => ?_
      by_cases he : e.1 = dayOf s.suggestedSlot.start
      · have hfil : ((s :: rest).filter fun t =>
            decide ((3 : ℚ) / 10 < t.confidence) &&
              decide (dayOf t.suggestedSlot.start = e.1))
            = s :: (rest.filter fun t =>
              decide ((3 : ℚ) / 10 < t.confidence) &&
                decide (dayOf t.suggestedSlot.start = e.1)) := by
          simp [List.filter_cons, hc, he]
        simp only [Function.comp_apply, if_pos he, hfil, hoursOf_cons,
          List.length_cons]
        refine congrArg (Prod.mk e.1) ?_
        refine congrArg₂ Prod.mk (by ring) (by omega)
      · have hne : ¬ dayOf s.suggestedSlot.start = e.1 := fun hx =>
          he hx.symm
        have hfil : ((s :: rest).filter fun t =>
            decide ((3 : ℚ) / 10 < t.confidence) &&
              decide (dayOf t.suggestedSlot.start = e.1))
            = rest.filter fun t =>
              decide ((3 : ℚ) / 10 < t.confidence) &&
                decide (dayOf t.suggestedSlot.start = e.1) := by
          simp [List.filter_cons, hne]
        simp only [Function.comp_apply, if_neg he, hfil]
    · rw [if_neg hc]
      rw [ih _ hnd]
      refine List.map_congr_left fun e _ => ?_
      have hfil : ((s :: rest).filter fun t =>
          decide ((3 : ℚ) / 10 < t.confidence) &&
            decide (dayOf t.suggestedSlot.start = e.1))
          = rest.filter fun t =>
            decide ((3 : ℚ) / 10 < t.confidence) &&
              decide (dayOf t.suggestedSlot.start = e.1) := by
        simp [List.filter_cons, hc]
      rw [hfil]

/-- The day keys of the planning range are pairwise distinct. -/
theorem daysInRange_nodup (r : DateRange) :
    (Backup.daysInRange r).Nodup := by
  have hinj : Function.Injective
      (fun k : Nat => dayOf r.start + Int.ofNat k) := by
    intro a b hab
    have hab2 : dayOf r.start + Int.ofNat a = dayOf r.start + Int.ofNat b :=
      hab
    have hab3 : Int.ofNat a = Int.ofNat b := by
      exact add_left_cancel hab2
    injection hab3
  exact List.Nodup.map hinj (List.nodup_range _)

/-- C10: the workload report has exactly one entry per calendar day of the
planning range, in order; each entry's hours are the summed durations (in
hours) of the above-0.3-confidence suggestions on that day with their
count, and the intensity label is light up to 2 hours, moderate up to 4,
heavy up to 6, and overloaded beyond; a day with no counted suggestion
gets zero hours and light intensity. -/
theorem c10_workload (suggestions : List Backup.BSuggestion)
    (r : DateRange) :
    Backup.calculateWorkloadBalance suggestions r
      = (Backup.daysInRange r).map (fun d =>
          { date := d
            hours := Backup.hoursOf (suggestions.filter fun s =>
              decide ((3 : ℚ) / 10 < s.confidence) &&
                decide (dayOf s.suggestedSlot.start = d))
            taskCount := (suggestions.filter fun s =>
              decide ((3 : ℚ) / 10 < s.confidence) &&
                decide (dayOf s.suggestedSlot.start = d)).length
            intensity := Backup.classifyWorkloadIntensity
              (Backup.hoursOf (suggestions.filter fun s =>
                decide ((3 : ℚ) / 10 < s.confidence) &&
                  decide (dayOf s.suggestedSlot.start = d))) }) ∧
    (∀ h : ℚ,
      (h ≤ 2 → Backup.classifyWorkloadIntensity h = .light) ∧
      (2 < h → h ≤ 4 → Backup.classifyWorkloadIntensity h = .moderate) ∧
      (4 < h → h ≤ 6 → Backup.classifyWorkloadIntensity h = .heavy) ∧
      (6 < h → Backup.classifyWorkloadIntensity h = .overloaded)) ∧
    Backup.hoursOf [] = 0 ∧
    Backup.classifyWorkloadIntensity 0 = .light := by
  refine ⟨?_, ?_, rfl, by norm_num [Backup.classifyWorkloadIntensity]⟩
  · simp only [Backup.calculateWorkloadBalance]
    have hkeys : (((Backup.daysInRange r).map
        fun d => (d, (0 : ℚ), (0 : Nat))).map Prod.fst).Nodup := by
      have hid : ((Backup.daysInRange r).map
            fun d => (d, (0 : ℚ), (0 : Nat))).map Prod.fst
          = Backup.daysInRange r := by
        rw [List.map_map]
        have h2 : (Backup.daysInRange r).map
            (Prod.fst ∘ fun d => (d, (0 : ℚ), (0 : Nat)))
            = (Backup.daysInRange r).map id :=
          List.map_congr_left fun d _ => rfl
        rw [h2, List.map_id]
      rw [hid]
      exact daysInRange_nodup r
    rw [workload_foldl suggestions _ hkeys, List.map_map, List.map_map]
    refine List.map_congr_left fun d _ => ?_
    simp
  · intro h
    refine ⟨fun h2 => ?_, fun h2 h4 => ?_, fun h4 h6 => ?_, fun h6 => ?_⟩
    · rw [Backup.classifyWorkloadIntensity, if_pos h2]
    · rw [Backup.classifyWorkloadIntensity, if_neg (by linarith),
        if_pos h4]
    · rw [Backup.classifyWorkloadIntensity, if_neg (by linarith),
        if_neg (by linarith), if_pos h6]
    · rw [Backup.classifyWorkloadIntensity, if_neg (by linarith),
        if_neg (by linarith), if_neg (by linarith)]

/-- C10 witness: the characterisation at a concrete suggestion list and
range, plus a discharged intensity threshold. -/
theorem c10_witness :
    Backup.calculateWorkloadBalance [sugHigh] range0
      = (Backup.daysInRange range0).map (fun d =>
          { date := d
            hours := Backup.hoursOf ([sugHigh].filter fun s =>
              decide ((3 : ℚ) / 10 < s.confidence) &&
                decide (dayOf s.suggestedSlot.start = d))
            taskCount := ([sugHigh].filter fun s =>
              decide ((3 : ℚ) / 10 < s.confidence) &&
                decide (dayOf s.suggestedSlot.start = d)).length
            intensity := Backup.classifyWorkloadIntensity
              (Backup.hoursOf ([sugHigh].filter fun s =>
                decide ((3 : ℚ) / 10 < s.confidence) &&
                  decide (dayOf s.suggestedSlot.start = d))) }) ∧
    Backup.classifyWorkloadIntensity 1 = .light := by
  refine ⟨(c10_workload [sugHigh] range0).1, ?_⟩
  exact ((c10_workload [sugHigh] range0).2.1 1).1 (by norm_num)

end AIFlow
